import Mathlib

set_option maxHeartbeats 1000000

/-!
Shallow embedding of the report-generation engine of `app.py`
(class `ReportGenerator` of the Business-Analytics dashboard).

Records are modelled as association lists from field names to rational
values (a MongoDB document restricted to the numeric fields the engine
touches); the MongoDB aggregation stages the engine builds
(`$match` on `Year`, `$project`, `$group` with `$min/$max/$avg/$sum`,
`$sort` + `$limit`, `$bucket`) are given their documented semantics as
executable Lean functions, and each `generate_*_report` method of the
source is translated stage by stage.
-/

/-- A document: an association list from field name to numeric value.
`find?` on the list is the document field lookup (`d.get(field)`). -/
abbrev Record := List (String × Rat)

/-- `d.get(f)`: first value bound to `f`, if any. -/
def getField (r : Record) (f : String) : Option Rat :=
  (r.find? (fun p => p.1 == f)).map (fun p => p.2)

/-- `d.get(f, default)`. -/
def getFieldD (r : Record) (f : String) (d : Rat) : Rat :=
  (getField r f).getD d

/-- The `$project` stage with `{k: 1 for k in keep}` (and `_id: 0`):
keep exactly the listed fields. -/
def project (keep : List String) (r : Record) : Record :=
  r.filter (fun p => keep.contains p.1)

/-- The `$match` stage `{"Year": {"$in": years}}`, built only when the
request's year list is non-empty (`if years:` in the source). -/
def filterYears (years : List Rat) (docs : List Record) : List Record :=
  if years.isEmpty then docs
  else docs.filter (fun r =>
    match getField r "Year" with
    | some y => years.contains y
    | none => false)

/-- One entry of `get_available_fields`. -/
structure FieldOption where
  value : String
  label : String
  ftype : String
deriving DecidableEq, Repr

/-- `ReportGenerator.get_available_fields`: the static field catalog. -/
def get_available_fields : List FieldOption :=
  [⟨"Total_Revenue", "Total Revenue", "currency"⟩,
   ⟨"Total_Sales", "Total Sales", "currency"⟩,
   ⟨"Year", "Year", "number"⟩,
   ⟨"Profit_Margin", "Profit Margin", "percentage"⟩,
   ⟨"Revenue_Growth", "Revenue Growth", "percentage"⟩,
   ⟨"Market_Cap", "Market Cap", "currency"⟩,
   ⟨"Record_ID", "Record ID", "number"⟩]

/-- The hard-coded currency-field list the engine branches on
(`field in ["Total_Revenue", "Total_Sales", "Market_Cap"]`). -/
def currencyFields : List String := ["Total_Revenue", "Total_Sales", "Market_Cap"]

/-- The hard-coded percentage-field list
(`field in ["Profit_Margin", "Revenue_Growth"]`). -/
def percentageFields : List String := ["Profit_Margin", "Revenue_Growth"]

/-- All registered field identifiers of the catalog. -/
def catalogIds : List String := get_available_fields.map (fun o => o.value)

/-- The catalog fields of kind `number` (the spec's COUNT kind). -/
def numberFields : List String :=
  (get_available_fields.filter (fun o => o.ftype == "number")).map (fun o => o.value)

/-- `$avg` over the numeric values of a group: `null` (here `none`) when
there is no numeric value, the arithmetic mean otherwise. -/
def aggAvg (vs : List Rat) : Option Rat :=
  if vs.isEmpty then none else some (vs.sum / vs.length)

/-- `$min` over the numeric values of a group (missing values ignored,
`null` when there is none). -/
def aggMin (vs : List Rat) : Option Rat := vs.min?

/-- `$max` over the numeric values of a group. -/
def aggMax (vs : List Rat) : Option Rat := vs.max?

/-- A `$group` output document: statistic name to value (`none` = BSON null). -/
abbrev StatDoc := List (String × Option Rat)

/-- The `$group` accumulator document `generate_summary_report` requests
for one field: the source branches on the hard-coded currency list
(adding `"sum"`), then the percentage list, then falls through to the
number branch; the two latter branches build the same accumulator set. -/
def summaryGroup (f : String) (docs : List Record) : StatDoc :=
  let vs := docs.filterMap (fun d => getField d f)
  if currencyFields.contains f then
    [("min", aggMin vs), ("max", aggMax vs), ("avg", aggAvg vs),
     ("sum", some vs.sum), ("count", some (docs.length : Rat))]
  else if percentageFields.contains f then
    [("min", aggMin vs), ("max", aggMax vs), ("avg", aggAvg vs),
     ("count", some (docs.length : Rat))]
  else
    [("min", aggMin vs), ("max", aggMax vs), ("avg", aggAvg vs),
     ("count", some (docs.length : Rat))]

/-- The list `stats` returned by the per-field summary aggregate call:
a `$group` with `_id: None` emits one document per distinct key among
its inputs, hence nothing at all on an empty input. -/
def summaryFieldStats (f : String) (docs : List Record) : List StatDoc :=
  if docs.isEmpty then [] else [summaryGroup f docs]

/-- `generate_summary_report`: `$match` on years, `$project` the selected
fields, then per field a `$group`; a field enters `results` only when its
`stats` list is non-empty (`if stats: results[field] = stats[0]`). -/
def generate_summary_report (fields : List String) (years : List Rat)
    (docs : List Record) : List (String × StatDoc) :=
  let filtered := (filterYears years docs).map (project fields)
  fields.filterMap (fun f =>
    match summaryFieldStats f filtered with
    | [] => none
    | s :: _ => some (f, s))

example :
    (generate_summary_report ["Total_Revenue"] []
      [[("Year", 2020), ("Total_Revenue", 100)],
       [("Year", 2021), ("Total_Revenue", 200)]]).map
        (fun p => (p.1, p.2.map Prod.fst)) =
    [("Total_Revenue", ["min", "max", "avg", "sum", "count"])] := rfl

example :
    generate_summary_report ["Total_Revenue"] [2099]
      [[("Year", 2020), ("Total_Revenue", 100)]] = [] := by decide

/-!
The `$sort` stage.  MongoDB compares BSON values with missing/null below
every number; `{key: 1}` is ascending, `{key: -1}` descending.  The
documented contract of the stage constrains only the key order: documents
with equal sort keys may be returned in any order (`mongoSortSpec`).  The
executable embedding uses one admissible execution of that contract, an
insertion sort (`sortBy`); properties proved of `sortBy` alone are
properties of this determinization, not of the program, unless they hold
of every list satisfying `mongoSortSpec`.
-/

/-- BSON "sorts no later than" on an optional numeric key
(missing/null sorts before every number). -/
def bsonLe : Option Rat → Option Rat → Bool
  | none, _ => true
  | some _, none => false
  | some a, some b => decide (a ≤ b)

/-- Insert `x` in front of the first element it sorts no later than. -/
def insertSorted (le : α → α → Bool) (x : α) : List α → List α
  | [] => [x]
  | y :: ys => if le x y then x :: y :: ys else y :: insertSorted le x ys

/-- One admissible execution of a `$sort` stage (an insertion sort); the
stage's documented contract is `mongoSortSpec`, which leaves the
relative order of equal keys unspecified. -/
def sortBy (le : α → α → Bool) : List α → List α
  | [] => []
  | a :: l => insertSorted le a (sortBy le l)

/-- The documented contract of a MongoDB `$sort` stage: an admissible
output is ANY permutation of the input that is ordered by the requested
comparator — the relative order of documents with equal sort keys is
unspecified. -/
def mongoSortSpec (le : α → α → Bool) (input output : List α) : Prop :=
  output.Perm input ∧ output.Pairwise (fun a b => le a b = true)

theorem insertSorted_perm (le : α → α → Bool) (x : α) (l : List α) :
    (insertSorted le x l).Perm (x :: l) := by
  induction l with
  | nil => simp [insertSorted]
  | cons y ys ih =>
    simp only [insertSorted]
    by_cases h : le x y = true
    · simp [h]
    · simp only [h, if_false]
      exact (ih.cons y).trans (List.Perm.swap x y ys)

theorem sortBy_perm (le : α → α → Bool) (l : List α) :
    (sortBy le l).Perm l := by
  induction l with
  | nil => simp [sortBy]
  | cons a l ih =>
    exact (insertSorted_perm le a (sortBy le l)).trans (ih.cons a)

theorem mem_sortBy (le : α → α → Bool) (l : List α) (a : α) :
    a ∈ sortBy le l ↔ a ∈ l :=
  (sortBy_perm le l).mem_iff

theorem nodup_sortBy (le : α → α → Bool) (l : List α) (h : l.Nodup) :
    (sortBy le l).Nodup :=
  (sortBy_perm le l).nodup_iff.mpr h

theorem pairwise_insertSorted (le : α → α → Bool)
    (total : ∀ a b, le a b = true ∨ le b a = true)
    (htrans : ∀ a b c, le a b = true → le b c = true → le a c = true)
    (x : α) (l : List α) (h : l.Pairwise (fun a b => le a b = true)) :
    (insertSorted le x l).Pairwise (fun a b => le a b = true) := by
  induction l with
  | nil => simp [insertSorted]
  | cons y ys ih =>
    rw [List.pairwise_cons] at h
    by_cases hxy : le x y = true
    · simp only [insertSorted, hxy, if_true]
      refine List.Pairwise.cons ?_ (List.Pairwise.cons h.1 h.2)
      intro b hb
      rcases List.mem_cons.mp hb with rfl | hb
      · exact hxy
      · exact htrans _ _ _ hxy (h.1 b hb)
    · have hyx : le y x = true := (total x y).resolve_left hxy
      simp only [insertSorted, hxy, if_false]
      refine List.Pairwise.cons ?_ (ih h.2)
      intro b hb
      rcases List.mem_cons.mp ((insertSorted_perm le x ys).mem_iff.mp hb) with rfl | hb
      · exact hyx
      · exact h.1 b hb

theorem pairwise_sortBy (le : α → α → Bool)
    (total : ∀ a b, le a b = true ∨ le b a = true)
    (htrans : ∀ a b c, le a b = true → le b c = true → le a c = true)
    (l : List α) :
    (sortBy le l).Pairwise (fun a b => le a b = true) := by
  induction l with
  | nil => simp [sortBy]
  | cons a l ih => exact pairwise_insertSorted le total htrans a _ ih

/-- The embedded determinization really is an admissible execution of
the `$sort` contract (for a total, transitive comparator). -/
theorem sortBy_mongoSortSpec (le : α → α → Bool)
    (total : ∀ a b, le a b = true ∨ le b a = true)
    (htrans : ∀ a b c, le a b = true → le b c = true → le a c = true)
    (l : List α) : mongoSortSpec le l (sortBy le l) :=
  ⟨sortBy_perm le l, pairwise_sortBy le total htrans l⟩

theorem insertSorted_map (le : β → β → Bool) (g : α → β) (x : α) (l : List α) :
    insertSorted le (g x) (l.map g)
      = (insertSorted (fun a b => le (g a) (g b)) x l).map g := by
  induction l with
  | nil => simp [insertSorted]
  | cons y ys ih =>
    by_cases h : le (g x) (g y) = true
    · simp [insertSorted, h]
    · simp only [List.map_cons, insertSorted, if_neg h, ih]

theorem sortBy_map (le : β → β → Bool) (g : α → β) (l : List α) :
    sortBy le (l.map g) = (sortBy (fun a b => le (g a) (g b)) l).map g := by
  induction l with
  | nil => simp [sortBy]
  | cons a l ih =>
    simp only [List.map_cons, sortBy, ih]
    exact insertSorted_map le g a _

theorem bsonLe_total (a b : Option Rat) : bsonLe a b = true ∨ bsonLe b a = true := by
  cases a <;> cases b <;> simp [bsonLe]
  exact le_total _ _

theorem bsonLe_trans (a b c : Option Rat) (h1 : bsonLe a b = true)
    (h2 : bsonLe b c = true) : bsonLe a c = true := by
  cases a <;> cases b <;> cases c <;> simp_all [bsonLe]
  exact le_trans h1 h2

theorem bsonLe_refl (a : Option Rat) : bsonLe a a = true := by
  cases a <;> simp [bsonLe]

/-- Sort direction the source picks for the top-performers query:
`-1` (descending) when `fields[0]` is a currency field, `1` otherwise. -/
def topSortDir (f : String) : Int :=
  if currencyFields.contains f then -1 else 1

/-- Sort direction for the bottom-performers query: the opposite. -/
def bottomSortDir (f : String) : Int :=
  if currencyFields.contains f then 1 else -1

/-- Comparator of a `$sort` stage `{f: dir}` on documents. -/
def sortLe (f : String) (dir : Int) (a b : Record) : Bool :=
  if dir == 1 then bsonLe (getField a f) (getField b f)
  else bsonLe (getField b f) (getField a f)

/-- `generate_comparison_report`: `$match` on years, `$project` on
`Year` plus the selected fields, then `$sort` on `fields[0]` and
`$limit 10`, once in each direction.  The route handler guarantees
`fields` is non-empty before this method runs (the Python indexes
`fields[0]`). -/
def generate_comparison_report (fields : List String) (years : List Rat)
    (docs : List Record) : List Record × List Record :=
  match fields with
  | [] => ([], [])
  | f :: _ =>
    let projected := (filterYears years docs).map (project ("Year" :: fields))
    ((sortBy (sortLe f (topSortDir f)) projected).take 10,
     (sortBy (sortLe f (bottomSortDir f)) projected).take 10)

theorem getField_cons_pos (p : String × Rat) (r : Record) (f : String)
    (h : (p.1 == f) = true) : getField (p :: r) f = some p.2 := by
  simp only [getField]
  rw [@List.find?_cons_of_pos _ (fun q => q.1 == f) p r h]
  rfl

theorem getField_cons_neg (p : String × Rat) (r : Record) (f : String)
    (h : (p.1 == f) = false) : getField (p :: r) f = getField r f := by
  simp only [getField]
  rw [@List.find?_cons_of_neg _ (fun q => q.1 == f) p r (by simp [h])]

theorem project_cons_pos (ks : List String) (p : String × Rat) (r : Record)
    (h : ks.contains p.1 = true) : project ks (p :: r) = p :: project ks r := by
  simp only [project, List.filter_cons, h, if_true]

theorem project_cons_neg (ks : List String) (p : String × Rat) (r : Record)
    (h : ks.contains p.1 = false) : project ks (p :: r) = project ks r := by
  simp only [project, List.filter_cons, h]
  simp

theorem getField_project (ks : List String) (r : Record) (f : String)
    (hf : ks.contains f = true) : getField (project ks r) f = getField r f := by
  induction r with
  | nil => rfl
  | cons p r ih =>
    by_cases hk : ks.contains p.1 = true
    · rw [project_cons_pos ks p r hk]
      cases hpf : (p.1 == f) with
      | true => rw [getField_cons_pos p _ f hpf, getField_cons_pos p r f hpf]
      | false => rw [getField_cons_neg p _ f hpf, getField_cons_neg p r f hpf]; exact ih
    · have hk' : ks.contains p.1 = false := by
        cases hc : ks.contains p.1 with
        | false => rfl
        | true => exact absurd hc hk
      have hpf : (p.1 == f) = false := by
        cases hpf : (p.1 == f) with
        | false => rfl
        | true =>
          exact absurd (eq_of_beq hpf ▸ hf)
            (fun hc => Bool.false_ne_true (hk'.symm.trans hc))
      rw [project_cons_neg ks p r hk', getField_cons_neg p r f hpf]
      exact ih

theorem sortLe_project (f : String) (dir : Int) (ks : List String)
    (hf : ks.contains f = true) (a b : Record) :
    sortLe f dir (project ks a) (project ks b) = sortLe f dir a b := by
  simp [sortLe, getField_project ks _ f hf]

/-- The distinct `$group` keys of the trend grouping on `$Year` (a
`$group` emits one document per distinct key, in unspecified order; the
following `$sort {_id: 1}` fixes the order, so any duplicate-free
enumeration models the stage). -/
def trendGroupKeys (docs : List Record) : List (Option Rat) :=
  (docs.map (fun d => getField d "Year")).dedup

/-- The `$group` output document of one year group: `_id` plus one
`$avg` accumulator per selected field other than `Year`. -/
def trendGroupDoc (fields : List String) (docs : List Record) (y : Option Rat) :
    Option Rat × List (String × Option Rat) :=
  let members := docs.filter (fun d => getField d "Year" == y)
  (y, fields.filterMap (fun f =>
    if f == "Year" then none
    else some (f, aggAvg (members.filterMap (fun d => getField d f)))))

/-- `generate_trend_report`: `$match` on years, `$project` on `Year`
plus the selected fields, `$group` on `$Year` with an `$avg` per
non-Year field, then `$sort {_id: 1}`. -/
def generate_trend_report (fields : List String) (years : List Rat)
    (docs : List Record) : List (Option Rat × List (String × Option Rat)) :=
  let filtered := (filterYears years docs).map (project ("Year" :: fields))
  (sortBy bsonLe (trendGroupKeys filtered)).map (trendGroupDoc fields filtered)

/-- Bucket boundaries `generate_distribution_report` hard-codes per
field kind. -/
def bucketBoundaries (f : String) : List Rat :=
  if currencyFields.contains f then
    [0, 10000000, 100000000, 1000000000, 5000000000]
  else if percentageFields.contains f then
    [-1, -0.2, 0, 0.1, 0.2, 0.5, 1]
  else
    [0, 1000, 5000, 10000, 50000]

/-- Adjacent boundary pairs of a `$bucket` stage: the half-open
intervals `[lo, hi)`. -/
def adjPairs (bs : List Rat) : List (Rat × Rat) := bs.zip bs.tail

/-- `$bucket` assignment: the `_id` (lower boundary) of the interval the
value falls in, `none` for the `"Other"` default bucket (values outside
every interval, and documents missing the grouped field). -/
def bucketOf (bs : List Rat) (v : Option Rat) : Option Rat :=
  match v with
  | none => none
  | some x =>
    ((adjPairs bs).find? (fun q => decide (q.1 ≤ x) && decide (x < q.2))).map
      (fun q => q.1)

/-- One `$bucket` output document: `_id` (`none` = `"Other"`), `count`,
and the `avg` accumulator. -/
abbrev BucketDoc := Option Rat × Nat × Option Rat

/-- The `$bucket` stage over the stream of grouped values: one output
document per non-empty bucket, numeric buckets in boundary order, the
default bucket last (BSON orders numbers before the `"Other"` string). -/
def mongoBucket (bs : List Rat) (vs : List (Option Rat)) : List BucketDoc :=
  (bs.dropLast.map some ++ [none]).filterMap (fun bid =>
    let grp := vs.filter (fun v => bucketOf bs v == bid)
    if grp.isEmpty then none
    else some (bid, grp.length, aggAvg (grp.filterMap (fun v => v))))

/-- `generate_distribution_report`: `$match` on years, then per selected
field a `$bucket` with the kind-specific boundaries (the source builds
no projection stage here). -/
def generate_distribution_report (fields : List String) (years : List Rat)
    (docs : List Record) : List (String × List BucketDoc) :=
  let filtered := filterYears years docs
  fields.map (fun f =>
    (f, mongoBucket (bucketBoundaries f) (filtered.map (fun d => getField d f))))

/-- Substring occurrence on character lists (Python's `in` on strings). -/
def containsSub (needle : List Char) : List Char → Bool
  | [] => needle.isEmpty
  | c :: rest => needle.isPrefixOf (c :: rest) || containsSub needle rest

/-- `s.lower()`: ASCII lower-casing, modelled on the character list
(kernel-friendly form of `String.toLower`). -/
def strLower (s : String) : List Char := s.data.map Char.toLower

/-- `sub in hay` for a lowered question. -/
def strIncludes (hay : List Char) (sub : String) : Bool := containsSub sub.data hay

/-- The four document reads the insight code performs on every sampled
document: `d.get("Year")` and `d.get(field, 0)` for the three keyword
fields. -/
structure SampleView where
  year : Option Rat
  rev : Rat
  margin : Rat
  growth : Rat
deriving DecidableEq

/-- Read a sampled document through the insight code's accessors. -/
def sampleView (d : Record) : SampleView :=
  ⟨getField d "Year", getFieldD d "Total_Revenue" 0,
   getFieldD d "Profit_Margin" 0, getFieldD d "Revenue_Growth" 0⟩

/-- The insight sentences `generate_chat_insights` can append, keyed by
their template with the interpolated numeric payload. -/
inductive Insight
  | avgRevenue (v : Rat)
  | revenueTrend (growthPct : Rat) (firstYear lastYear : Rat)
  | avgMargin (v : Rat)
  | highProfit (n total : Nat)
  | avgGrowth (v : Rat)
  | positiveGrowth (n total : Nat)
  | recordStats (count : Nat) (years : List Rat)
  | selectedFields (fields : List String)
deriving DecidableEq

/-- Append `v` to the entry of key `y` of an insertion-ordered
association list (Python dict update `revenue_by_year[year].append`). -/
def dictAppend : List (Rat × List Rat) → Rat → Rat → List (Rat × List Rat)
  | [], y, v => [(y, [v])]
  | (k, vs) :: rest, y, v =>
    if k == y then (k, vs ++ [v]) :: rest else (k, vs) :: dictAppend rest y v

/-- `revenue_by_year`: sampled revenues grouped by truthy year
(`if year:` skips an absent year — and year `0`, falsy in Python). -/
def revenueByYear (svs : List SampleView) : List (Rat × List Rat) :=
  svs.foldl (fun acc d =>
    match d.year with
    | none => acc
    | some y => if y == 0 then acc else dictAppend acc y d.rev) []

/-- `years_sorted`: Python's `sorted` over the grouped years. -/
def yearsSorted (byYear : List (Rat × List Rat)) : List Rat :=
  sortBy (fun a b => decide (a ≤ b)) (byYear.map Prod.fst)

/-- `avg_by_year`: the per-year average revenues, in sorted-year order
(every grouped year has at least one sample, so these divisions are
safe in Python too). -/
def avgByYear (byYear : List (Rat × List Rat)) : List Rat :=
  (yearsSorted byYear).map (fun y =>
    ((byYear.lookup y).getD []).sum / ((byYear.lookup y).getD []).length)

/-- The year-over-year trend sentence of the revenue branch: produced
only when more than one (truthy) year was sampled; the growth formula
`(avg_by_year[-1] - avg_by_year[0]) / avg_by_year[0] * 100` divides by
the earliest year's average revenue, and Python raises
`ZeroDivisionError` (modelled as `none`) when that average is zero. -/
def revenueTrendIns (svs : List SampleView) : Option (List Insight) :=
  if 1 < (revenueByYear svs).length then
    if (avgByYear (revenueByYear svs)).headD 0 == 0 then none
    else some [Insight.revenueTrend
      (((avgByYear (revenueByYear svs)).getLastD 0
          - (avgByYear (revenueByYear svs)).headD 0)
        / (avgByYear (revenueByYear svs)).headD 0 * 100)
      ((yearsSorted (revenueByYear svs)).headD 0)
      ((yearsSorted (revenueByYear svs)).getLastD 0)]
  else some []

/-- The revenue-keyword branch: average revenue, then the trend
sentence; when the trend computation raises (`none`), the exception
propagates and the already-appended average sentence is discarded with
the whole insight list. -/
def revenueInsights (svs : List SampleView) : Option (List Insight) :=
  if svs.isEmpty then some []
  else (revenueTrendIns svs).map (fun trend =>
    Insight.avgRevenue ((svs.map (fun d => d.rev)).sum / svs.length) :: trend)

/-- The profit-keyword branch: average margin and the count of sampled
documents with margin above `0.8`. -/
def profitInsights (svs : List SampleView) : List Insight :=
  if svs.isEmpty then []
  else
    [Insight.avgMargin ((svs.map (fun d => d.margin)).sum / svs.length),
     Insight.highProfit (svs.filter (fun d => decide (d.margin > 0.8))).length
       svs.length]

/-- The growth-keyword branch: average growth and the count of sampled
documents with positive growth. -/
def growthInsights (svs : List SampleView) : List Insight :=
  if svs.isEmpty then []
  else
    [Insight.avgGrowth ((svs.map (fun d => d.growth)).sum / svs.length),
     Insight.positiveGrowth (svs.filter (fun d => decide (d.growth > 0))).length
       svs.length]

/-- The insight assembly: each keyword branch is gated on the keyword
occurring in the lower-cased question AND its field being selected; the
two general sentences are always appended last.  `none` is the
uncaught `ZeroDivisionError` of the revenue branch, which aborts the
whole computation. -/
def chatFromSample (fields : List String) (years : List Rat)
    (question : String) (svs : List SampleView) : Option (List Insight) :=
  (if strIncludes (strLower question) "revenue"
      && fields.contains "Total_Revenue" then
    revenueInsights svs else some []).map (fun rev =>
  rev ++
  (if strIncludes (strLower question) "profit" && fields.contains "Profit_Margin" then
      profitInsights svs else []) ++
  (if strIncludes (strLower question) "growth" && fields.contains "Revenue_Growth" then
      growthInsights svs else []) ++
  [Insight.recordStats svs.length years, Insight.selectedFields fields])

/-- `generate_chat_insights`: `$match` on years, `$project` on `Year`
plus the selected fields, `$limit 1000` sample, then the keyword-gated
insight assembly; every read of a sampled document goes through
`d.get(...)` (`sampleView`).  `none` models the method raising
(ZeroDivisionError in the revenue trend). -/
def generate_chat_insights (fields : List String) (years : List Rat)
    (question : String) (docs : List Record) : Option (List Insight) :=
  let sample := ((filterYears years docs).map (project ("Year" :: fields))).take 1000
  chatFromSample fields years question (sample.map sampleView)

/-- Kind-specific payload of a generated report. -/
inductive ReportData
  | summary (data : List (String × StatDoc))
  | trend (data : List (Option Rat × List (String × Option Rat)))
  | comparison (top bottom : List Record)
  | distribution (data : List (String × List BucketDoc))
  | chat (insights : List Insight) (sampleCount : Nat)

/-- The response envelope the route handler wraps: request echo plus the
payload (the `generated_at` wall-clock timestamp is outside the model). -/
structure ReportResult where
  rtype : String
  fields : List String
  years : List Rat
  data : ReportData

/-- Failures the `/api/generate_report` route signals instead of
returning a report: the explicit empty-selection and unknown-type
checks, and `raised` for an exception escaping a report method (the
route's `except Exception` handler turns it into an error response). -/
inductive EngineError
  | missingFields
  | invalidType
  | raised
deriving DecidableEq

/-- The `/api/generate_report` handler: `if not fields:` rejects an empty
selection before any report method (hence any record access) runs, then
dispatches on the report type string; an unknown type is rejected. -/
def generate_report (report_type : String) (fields : List String)
    (years : List Rat) (question : String) (docs : List Record) :
    Except EngineError ReportResult :=
  if fields.isEmpty then .error .missingFields
  else if report_type == "summary" then
    .ok ⟨"summary", fields, years,
      .summary (generate_summary_report fields years docs)⟩
  else if report_type == "trend" then
    .ok ⟨"trend", fields, years, .trend (generate_trend_report fields years docs)⟩
  else if report_type == "comparison" then
    .ok ⟨"comparison", fields, years,
      .comparison (generate_comparison_report fields years docs).1
        (generate_comparison_report fields years docs).2⟩
  else if report_type == "distribution" then
    .ok ⟨"distribution", fields, years,
      .distribution (generate_distribution_report fields years docs)⟩
  else if report_type == "chat" then
    match generate_chat_insights fields years question docs with
    | none => .error .raised
    | some ins =>
      .ok ⟨"chat", fields, years,
        .chat ins
          (((filterYears years docs).map
            (project ("Year" :: fields))).take 1000).length⟩
  else .error .invalidType

theorem contains_iff_mem [BEq α] [LawfulBEq α] (l : List α) (a : α) :
    l.contains a = true ↔ a ∈ l :=
  List.elem_iff

/-- `results[field]` of a summary report determines the group document:
it is the single `$group` output over the non-empty filtered batch. -/
theorem lookup_summary_filterMap (fs : List String) (filtered : List Record)
    (f : String) (s : StatDoc)
    (h : (fs.filterMap (fun g =>
        match summaryFieldStats g filtered with
        | [] => none
        | s :: _ => some (g, s))).lookup f = some s) :
    s = summaryGroup f filtered ∧ filtered.isEmpty = false := by
  induction fs with
  | nil => exact absurd h (by simp)
  | cons g gs ih =>
    by_cases hfil : filtered.isEmpty = true
    · have hnone : summaryFieldStats g filtered = [] := by
        simp [summaryFieldStats, hfil]
      rw [List.filterMap_cons] at h
      simp only [hnone] at h
      exact ih h
    · have hfil' : filtered.isEmpty = false := by
        cases hx : filtered.isEmpty with
        | false => rfl
        | true => exact absurd hx hfil
      have hone : summaryFieldStats g filtered = [summaryGroup g filtered] := by
        simp [summaryFieldStats, hfil']
      rw [List.filterMap_cons] at h
      simp only [hone] at h
      rw [List.lookup_cons] at h
      cases hfg : f == g with
      | true =>
        simp only [hfg] at h
        exact ⟨(Option.some_inj.mp h).symm.trans (by rw [eq_of_beq hfg]), hfil'⟩
      | false =>
        simp only [hfg] at h
        exact ih h

theorem lookup_summary (fields : List String) (years : List Rat)
    (docs : List Record) (f : String) (s : StatDoc)
    (h : (generate_summary_report fields years docs).lookup f = some s) :
    s = summaryGroup f ((filterYears years docs).map (project fields)) ∧
      ((filterYears years docs).map (project fields)).isEmpty = false :=
  lookup_summary_filterMap fields _ f s h

/-- C1: for every SUMMARY request, the statistic set of a selected
field's result document is chosen by the field's kind: a currency field
(`Total_Revenue`, `Total_Sales`, `Market_Cap`) yields exactly
`{min, max, avg, sum, count}`, while a percentage field
(`Profit_Margin`, `Revenue_Growth`) or a number/count field (`Year`,
`Record_ID`) yields exactly `{min, max, avg, count}` with no `sum`
key. -/
theorem summary_stat_set_by_kind (fields : List String) (years : List Rat)
    (docs : List Record) (f : String) (s : StatDoc)
    (h : (generate_summary_report fields years docs).lookup f = some s) :
    (f ∈ currencyFields → s.map Prod.fst = ["min", "max", "avg", "sum", "count"]) ∧
    (f ∈ percentageFields ∨ f ∈ numberFields →
      s.map Prod.fst = ["min", "max", "avg", "count"] ∧
        "sum" ∉ s.map Prod.fst) := by
  obtain ⟨rfl, -⟩ := lookup_summary fields years docs f s h
  constructor
  · intro hc
    have hf : f = "Total_Revenue" ∨ f = "Total_Sales" ∨ f = "Market_Cap" := by
      simpa [currencyFields] using hc
    rcases hf with rfl | rfl | rfl <;> rfl
  · intro hc
    have hf : f = "Profit_Margin" ∨ f = "Revenue_Growth" ∨
        f = "Year" ∨ f = "Record_ID" := by
      rcases hc with hc | hc
      · have := (by simpa [percentageFields] using hc :
          f = "Profit_Margin" ∨ f = "Revenue_Growth")
        tauto
      · have hn : numberFields = ["Year", "Record_ID"] := rfl
        rw [hn] at hc
        have := (by simpa using hc : f = "Year" ∨ f = "Record_ID")
        tauto
    rcases hf with rfl | rfl | rfl | rfl <;>
      exact ⟨rfl, fun hm => absurd
        (show "sum" ∈ ["min", "max", "avg", "count"] from hm) (by decide)⟩

/-- C1 witness: a concrete summary request over one record per kind. -/
theorem summary_stat_set_by_kind_witness :
    ((summaryGroup "Total_Revenue"
        ((filterYears [] [[("Year", 2020), ("Total_Revenue", 100),
          ("Profit_Margin", 1)]]).map
          (project ["Total_Revenue", "Profit_Margin", "Year"]))).map Prod.fst
      = ["min", "max", "avg", "sum", "count"]) ∧
    ((summaryGroup "Profit_Margin"
        ((filterYears [] [[("Year", 2020), ("Total_Revenue", 100),
          ("Profit_Margin", 1)]]).map
          (project ["Total_Revenue", "Profit_Margin", "Year"]))).map Prod.fst
      = ["min", "max", "avg", "count"]) ∧
    ("sum" ∉ (summaryGroup "Year"
        ((filterYears [] [[("Year", 2020), ("Total_Revenue", 100),
          ("Profit_Margin", 1)]]).map
          (project ["Total_Revenue", "Profit_Margin", "Year"]))).map Prod.fst) :=
  ⟨(summary_stat_set_by_kind ["Total_Revenue", "Profit_Margin", "Year"] []
      [[("Year", 2020), ("Total_Revenue", 100), ("Profit_Margin", 1)]]
      "Total_Revenue" _ rfl).1 (by decide),
   ((summary_stat_set_by_kind ["Total_Revenue", "Profit_Margin", "Year"] []
      [[("Year", 2020), ("Total_Revenue", 100), ("Profit_Margin", 1)]]
      "Profit_Margin" _ rfl).2 (Or.inl (by decide))).1,
   ((summary_stat_set_by_kind ["Total_Revenue", "Profit_Margin", "Year"] []
      [[("Year", 2020), ("Total_Revenue", 100), ("Profit_Margin", 1)]]
      "Year" _ rfl).2 (Or.inr (by decide))).2⟩

/-- C9: a request whose fields sequence is empty fails with the
missing-fields error before any report method runs: for every report
type, year filter and question, the handler returns the error, and the
result is the same whatever record batch the source would have supplied
(no records are fetched, no aggregation runs). -/
theorem empty_fields_rejected (report_type : String) (years : List Rat)
    (question : String) (docs docs' : List Record) :
    generate_report report_type [] years question docs
        = .error .missingFields ∧
    generate_report report_type [] years question docs
        = generate_report report_type [] years question docs' :=
  ⟨rfl, rfl⟩

/-- C7 counterexample: a SUMMARY whose year filter matches no record
returns a data mapping with no entry at all for the selected field —
there is no `count = 0` statistics document for it, contrary to the
claim. -/
theorem summary_empty_batch_counterexample :
    (generate_summary_report ["Total_Revenue"] [2099]
        [[("Year", 2020), ("Total_Revenue", 100)]]).lookup "Total_Revenue"
      = none ∧
    (generate_report "summary" ["Total_Revenue"] [2099] ""
        [[("Year", 2020), ("Total_Revenue", 100)]]).isOk = true := by
  constructor
  · rfl
  · rfl

/-- C7 (amended): SUMMARY over an empty matched batch returns a result
rather than failing, but its data omits every selected field entirely
(the per-field `$group` emits nothing on empty input, so no `count = 0`
entries appear). -/
theorem summary_empty_batch (fields : List String) (years : List Rat)
    (question : String) (docs : List Record)
    (hf : fields.isEmpty = false) (h : filterYears years docs = []) :
    generate_report "summary" fields years question docs
        = .ok ⟨"summary", fields, years, .summary []⟩ ∧
    generate_summary_report fields years docs = [] := by
  have hsum : generate_summary_report fields years docs = [] := by
    simp only [generate_summary_report, h, List.map_nil]
    exact List.filterMap_eq_nil_iff.mpr (fun f _ => rfl)
  refine ⟨?_, hsum⟩
  simp [generate_report, hf, hsum]

/-- C7 witness: the amended statement at a concrete filtered-to-empty
request. -/
theorem summary_empty_batch_witness :
    (["Total_Revenue"] : List String).isEmpty = false ∧
    filterYears [2099] [[("Year", 2020), ("Total_Revenue", 100)]] = [] ∧
    generate_report "summary" ["Total_Revenue"] [2099] ""
        [[("Year", 2020), ("Total_Revenue", 100)]]
      = .ok ⟨"summary", ["Total_Revenue"], [2099], .summary []⟩ :=
  ⟨rfl, by decide,
    (summary_empty_batch ["Total_Revenue"] [2099] ""
      [[("Year", 2020), ("Total_Revenue", 100)]] rfl (by decide)).1⟩

/-- C6 counterexample: `"Bogus"` is not registered in the field catalog,
yet a summary request selecting it is not rejected — the engine computes
and returns a report (there is no unknown-field failure path in the
source). -/
theorem unknown_field_counterexample :
    ("Bogus" ∉ catalogIds) ∧
    (generate_report "summary" ["Bogus"] [] ""
        [[("Year", 2020), ("Total_Revenue", 100)]]).isOk = true := by
  constructor
  · decide
  · rfl

theorem currency_subset_catalog (f : String) (h : f ∈ currencyFields) :
    f ∈ catalogIds := by
  have hf : f = "Total_Revenue" ∨ f = "Total_Sales" ∨ f = "Market_Cap" := by
    simpa [currencyFields] using h
  rcases hf with rfl | rfl | rfl <;> decide

theorem percentage_subset_catalog (f : String) (h : f ∈ percentageFields) :
    f ∈ catalogIds := by
  have hf : f = "Profit_Margin" ∨ f = "Revenue_Growth" := by
    simpa [percentageFields] using h
  rcases hf with rfl | rfl <;> decide

/-- C6 (amended): a selected field id that is not registered in the
field catalog is NOT rejected: it falls through to the default
number-field branch, so its summary statistics document carries exactly
`{min, max, avg, count}`, and the request succeeds. -/
theorem unknown_field_processed (f : String) (fields : List String)
    (years : List Rat) (question : String) (docs : List Record)
    (hreg : f ∉ catalogIds) (s : StatDoc)
    (h : (generate_summary_report fields years docs).lookup f = some s) :
    s.map Prod.fst = ["min", "max", "avg", "count"] ∧
    (fields.isEmpty = false →
      (generate_report "summary" fields years question docs).isOk = true) := by
  obtain ⟨rfl, -⟩ := lookup_summary fields years docs f s h
  have hnc : currencyFields.contains f = false := by
    cases hc : currencyFields.contains f with
    | false => rfl
    | true =>
      exact absurd (currency_subset_catalog f ((contains_iff_mem _ _).mp hc)) hreg
  have hnp : percentageFields.contains f = false := by
    cases hc : percentageFields.contains f with
    | false => rfl
    | true =>
      exact absurd (percentage_subset_catalog f ((contains_iff_mem _ _).mp hc)) hreg
  constructor
  · simp only [summaryGroup]
    rw [if_neg (fun hc => Bool.false_ne_true (hnc.symm.trans hc)),
      if_neg (fun hc => Bool.false_ne_true (hnp.symm.trans hc))]
    rfl
  · intro hne
    simp [generate_report, hne, Except.isOk, Except.toBool]

/-- C6 witness: the amended statement at the `"Bogus"` field. -/
theorem unknown_field_processed_witness :
    ("Bogus" ∉ catalogIds) ∧
    ((summaryGroup "Bogus"
        ((filterYears [] [[("Year", 2020)]]).map (project ["Bogus"]))).map Prod.fst
      = ["min", "max", "avg", "count"]) ∧
    (generate_report "summary" ["Bogus"] [] "" [[("Year", 2020)]]).isOk = true :=
  ⟨by decide,
   (unknown_field_processed "Bogus" ["Bogus"] [] "" [[("Year", 2020)]]
      (by decide) _ rfl).1,
   (unknown_field_processed "Bogus" ["Bogus"] [] "" [[("Year", 2020)]]
      (by decide) _ rfl).2 rfl⟩

theorem sortLe_total (f : String) (dir : Int) (a b : Record) :
    sortLe f dir a b = true ∨ sortLe f dir b a = true := by
  unfold sortLe
  by_cases hd : (dir == 1) = true
  · rw [if_pos hd, if_pos hd]
    exact bsonLe_total _ _
  · rw [if_neg hd, if_neg hd]
    exact bsonLe_total _ _

theorem sortLe_trans (f : String) (dir : Int) (a b c : Record)
    (h1 : sortLe f dir a b = true) (h2 : sortLe f dir b c = true) :
    sortLe f dir a c = true := by
  unfold sortLe at *
  by_cases hd : (dir == 1) = true
  · rw [if_pos hd] at *
    exact bsonLe_trans _ _ _ h1 h2
  · rw [if_neg hd] at *
    exact bsonLe_trans _ _ _ h2 h1

/-- Projecting onto a field list containing the ranking key does not
change the `$sort` comparator: the ranking is decided by `fields[0]`
alone, before/independently of which other fields are carried. -/
theorem comparison_first_field_ranking (f : String) (rest : List String)
    (years : List Rat) (docs : List Record) (dir : Int) :
    sortBy (sortLe f dir)
        ((filterYears years docs).map (project ("Year" :: f :: rest)))
      = (sortBy (sortLe f dir) (filterYears years docs)).map
          (project ("Year" :: f :: rest)) := by
  have hc : ("Year" :: f :: rest).contains f = true := by
    simp [List.contains_cons]
  have hle : (fun a b => sortLe f dir (project ("Year" :: f :: rest) a)
      (project ("Year" :: f :: rest) b)) = sortLe f dir := by
    funext a b
    exact sortLe_project f dir _ hc a b
  rw [sortBy_map, hle]

/-- C2: for every COMPARISON request, only the first selected field
determines the ranking — top and bottom performers are the projections
(carrying Year and all selected fields) of a ranking of the unprojected
filtered batch that depends on `fields[0]` alone — and the sort
polarity is decided by its kind: a currency first field ranks
descending for top performers and ascending for bottom performers, and
any non-currency first field uses the inverse polarity. -/
theorem comparison_first_field_polarity (f : String) (rest : List String)
    (years : List Rat) (docs : List Record) :
    ((generate_comparison_report (f :: rest) years docs).1
        = ((sortBy (sortLe f (topSortDir f)) (filterYears years docs)).take 10).map
            (project ("Year" :: f :: rest)) ∧
     (generate_comparison_report (f :: rest) years docs).2
        = ((sortBy (sortLe f (bottomSortDir f)) (filterYears years docs)).take 10).map
            (project ("Year" :: f :: rest))) ∧
    (currencyFields.contains f = true →
      ((generate_comparison_report (f :: rest) years docs).1.map
          (fun r => getField r f)).Pairwise (fun a b => bsonLe b a = true) ∧
      ((generate_comparison_report (f :: rest) years docs).2.map
          (fun r => getField r f)).Pairwise (fun a b => bsonLe a b = true)) ∧
    (currencyFields.contains f = false →
      ((generate_comparison_report (f :: rest) years docs).1.map
          (fun r => getField r f)).Pairwise (fun a b => bsonLe a b = true) ∧
      ((generate_comparison_report (f :: rest) years docs).2.map
          (fun r => getField r f)).Pairwise (fun a b => bsonLe b a = true)) := by
  have hpair : ∀ dir : Int,
      ((sortBy (sortLe f dir) ((filterYears years docs).map
          (project ("Year" :: f :: rest)))).take 10).Pairwise
        (fun a b => sortLe f dir a b = true) :=
    fun dir => List.Pairwise.sublist (List.take_sublist _ _)
      (pairwise_sortBy _ (sortLe_total f dir) (sortLe_trans f dir) _)
  refine ⟨⟨?_, ?_⟩, ?_, ?_⟩
  · show (sortBy (sortLe f (topSortDir f)) ((filterYears years docs).map
        (project ("Year" :: f :: rest)))).take 10
      = ((sortBy (sortLe f (topSortDir f)) (filterYears years docs)).take 10).map
          (project ("Year" :: f :: rest))
    rw [comparison_first_field_ranking, List.map_take]
  · show (sortBy (sortLe f (bottomSortDir f)) ((filterYears years docs).map
        (project ("Year" :: f :: rest)))).take 10
      = ((sortBy (sortLe f (bottomSortDir f)) (filterYears years docs)).take 10).map
          (project ("Year" :: f :: rest))
    rw [comparison_first_field_ranking, List.map_take]
  · intro hc
    have ht : topSortDir f = -1 := by
      unfold topSortDir
      rw [if_pos hc]
    have hb : bottomSortDir f = 1 := by
      unfold bottomSortDir
      rw [if_pos hc]
    constructor
    · refine List.pairwise_map.mpr ((hpair (topSortDir f)).imp ?_)
      intro a b hab
      rw [ht] at hab
      unfold sortLe at hab
      rw [if_neg (by decide)] at hab
      exact hab
    · refine List.pairwise_map.mpr ((hpair (bottomSortDir f)).imp ?_)
      intro a b hab
      rw [hb] at hab
      unfold sortLe at hab
      rw [if_pos (by decide)] at hab
      exact hab
  · intro hc
    have ht : topSortDir f = 1 := by
      unfold topSortDir
      rw [if_neg (fun hcc => Bool.false_ne_true (hc.symm.trans hcc))]
    have hb : bottomSortDir f = -1 := by
      unfold bottomSortDir
      rw [if_neg (fun hcc => Bool.false_ne_true (hc.symm.trans hcc))]
    constructor
    · refine List.pairwise_map.mpr ((hpair (topSortDir f)).imp ?_)
      intro a b hab
      rw [ht] at hab
      unfold sortLe at hab
      rw [if_pos (by decide)] at hab
      exact hab
    · refine List.pairwise_map.mpr ((hpair (bottomSortDir f)).imp ?_)
      intro a b hab
      rw [hb] at hab
      unfold sortLe at hab
      rw [if_neg (by decide)] at hab
      exact hab

/-- C2 witness: the polarity parts at a currency first field
(`Total_Revenue`) and at a percentage first field (`Profit_Margin`)
over a concrete batch. -/
theorem comparison_first_field_polarity_witness :
    (((generate_comparison_report ["Total_Revenue"] []
        [[("Year", 2020), ("Total_Revenue", 100)],
         [("Year", 2021), ("Total_Revenue", 200)]]).1.map
        (fun r => getField r "Total_Revenue")).Pairwise
          (fun a b => bsonLe b a = true)) ∧
    (((generate_comparison_report ["Profit_Margin"] []
        [[("Year", 2020), ("Profit_Margin", 1)],
         [("Year", 2021), ("Profit_Margin", 2)]]).1.map
        (fun r => getField r "Profit_Margin")).Pairwise
          (fun a b => bsonLe a b = true)) :=
  ⟨((comparison_first_field_polarity "Total_Revenue" [] []
      [[("Year", 2020), ("Total_Revenue", 100)],
       [("Year", 2021), ("Total_Revenue", 200)]]).2.1 rfl).1,
   ((comparison_first_field_polarity "Profit_Margin" [] []
      [[("Year", 2020), ("Profit_Margin", 1)],
       [("Year", 2021), ("Profit_Margin", 2)]]).2.2 rfl).1⟩

/-- C8 counterexample: the comparison ranking delegates to a `$sort`
stage whose documented contract leaves documents with equal sort keys
in unspecified order.  At a concrete two-record batch tying on the
ranking field, the input-reversed output also satisfies the requested
stage's contract and differs from the input order, so preservation of
original input order among ties is not a property the program
guarantees. -/
theorem comparison_tie_stability_counterexample :
    (getField [(("Year" : String), (2020 : Rat)), ("Total_Revenue", 100)]
        "Total_Revenue"
      = getField [(("Year" : String), (2021 : Rat)), ("Total_Revenue", 100)]
        "Total_Revenue") ∧
    mongoSortSpec (sortLe "Total_Revenue" (topSortDir "Total_Revenue"))
      ((filterYears [] [[("Year", 2020), ("Total_Revenue", 100)],
          [("Year", 2021), ("Total_Revenue", 100)]]).map
        (project ("Year" :: ["Total_Revenue"])))
      [project ("Year" :: ["Total_Revenue"])
          [("Year", 2021), ("Total_Revenue", 100)],
       project ("Year" :: ["Total_Revenue"])
          [("Year", 2020), ("Total_Revenue", 100)]] ∧
    ([project ("Year" :: ["Total_Revenue"])
          [("Year", 2021), ("Total_Revenue", 100)],
      project ("Year" :: ["Total_Revenue"])
          [("Year", 2020), ("Total_Revenue", 100)]]
      ≠ (filterYears [] [[("Year", 2020), ("Total_Revenue", 100)],
          [("Year", 2021), ("Total_Revenue", 100)]]).map
        (project ("Year" :: ["Total_Revenue"]))) := by
  refine ⟨rfl, ⟨?_, ?_⟩, ?_⟩
  · exact List.Perm.swap
      (project ("Year" :: ["Total_Revenue"])
        [("Year", 2020), ("Total_Revenue", 100)])
      (project ("Year" :: ["Total_Revenue"])
        [("Year", 2021), ("Total_Revenue", 100)]) []
  · refine List.pairwise_cons.mpr ⟨?_, List.pairwise_singleton _ _⟩
    intro b hb
    rcases List.mem_singleton.mp hb with rfl
    decide
  · decide

/-- C8 (amended): the top and bottom performer sets are each capped at
10 records by the `$limit` stage, and under EVERY admissible execution
of the requested `$sort` stages the capped outputs are ordered by the
ranking comparator in the polarity of the query; the relative order of
records tying on the ranking field is left unspecified by the stage's
contract, so input order among ties is not guaranteed.  The embedded
determinization `sortBy` is one admissible execution. -/
theorem comparison_cap_under_sort_contract (f : String) (rest : List String)
    (years : List Rat) (docs : List Record) (top bottom : List Record)
    (htop : mongoSortSpec (sortLe f (topSortDir f))
      ((filterYears years docs).map (project ("Year" :: f :: rest))) top)
    (hbot : mongoSortSpec (sortLe f (bottomSortDir f))
      ((filterYears years docs).map (project ("Year" :: f :: rest))) bottom) :
    (top.take 10).length ≤ 10 ∧ (bottom.take 10).length ≤ 10 ∧
    (top.take 10).Pairwise (fun a b => sortLe f (topSortDir f) a b = true) ∧
    (bottom.take 10).Pairwise
      (fun a b => sortLe f (bottomSortDir f) a b = true) ∧
    mongoSortSpec (sortLe f (topSortDir f))
      ((filterYears years docs).map (project ("Year" :: f :: rest)))
      (sortBy (sortLe f (topSortDir f))
        ((filterYears years docs).map (project ("Year" :: f :: rest)))) :=
  ⟨List.length_take_le _ _, List.length_take_le _ _,
   List.Pairwise.sublist (List.take_sublist _ _) htop.2,
   List.Pairwise.sublist (List.take_sublist _ _) hbot.2,
   sortBy_mongoSortSpec _ (sortLe_total f _) (sortLe_trans f _) _⟩

/-- C8 witness: the amended statement at a concrete batch, taking the
embedded `$sort` determinization as the admissible execution. -/
theorem comparison_cap_under_sort_contract_witness :
    ((sortBy (sortLe "Total_Revenue" (topSortDir "Total_Revenue"))
        ((filterYears [] [[("Year", 2020), ("Total_Revenue", 100)],
          [("Year", 2021), ("Total_Revenue", 100)]]).map
          (project ("Year" :: ["Total_Revenue"])))).take 10).length ≤ 10 ∧
    ((sortBy (sortLe "Total_Revenue" (topSortDir "Total_Revenue"))
        ((filterYears [] [[("Year", 2020), ("Total_Revenue", 100)],
          [("Year", 2021), ("Total_Revenue", 100)]]).map
          (project ("Year" :: ["Total_Revenue"])))).take 10).Pairwise
      (fun a b => sortLe "Total_Revenue" (topSortDir "Total_Revenue") a b
        = true) := by
  have h := comparison_cap_under_sort_contract "Total_Revenue" [] []
    [[("Year", 2020), ("Total_Revenue", 100)],
     [("Year", 2021), ("Total_Revenue", 100)]]
    (sortBy (sortLe "Total_Revenue" (topSortDir "Total_Revenue"))
      ((filterYears [] [[("Year", 2020), ("Total_Revenue", 100)],
        [("Year", 2021), ("Total_Revenue", 100)]]).map
        (project ("Year" :: ["Total_Revenue"]))))
    (sortBy (sortLe "Total_Revenue" (bottomSortDir "Total_Revenue"))
      ((filterYears [] [[("Year", 2020), ("Total_Revenue", 100)],
        [("Year", 2021), ("Total_Revenue", 100)]]).map
        (project ("Year" :: ["Total_Revenue"]))))
    (sortBy_mongoSortSpec _ (sortLe_total _ _) (sortLe_trans _ _) _)
    (sortBy_mongoSortSpec _ (sortLe_total _ _) (sortLe_trans _ _) _)
  exact ⟨h.1, h.2.2.1⟩

theorem lookup_map_apply {β : Type} (fs : List String) (val : String → β)
    (f : String) (out : β)
    (h : (fs.map (fun g => (g, val g))).lookup f = some out) : out = val f := by
  induction fs with
  | nil => exact absurd h (by simp)
  | cons g gs ih =>
    rw [List.map_cons, List.lookup_cons] at h
    cases hfg : f == g with
    | true =>
      simp only [hfg] at h
      rw [eq_of_beq hfg]
      exact (Option.some_inj.mp h).symm
    | false =>
      simp only [hfg] at h
      exact ih h

/-- Looking up a non-Year selected field in a trend group document
returns its `$avg` accumulator. -/
theorem lookup_trend_fields (fields : List String) (members : List Record)
    (f : String) (hf : f ∈ fields) (hfy : (f == "Year") = false) :
    (fields.filterMap (fun g =>
        if g == "Year" then none
        else some (g, aggAvg (members.filterMap (fun d => getField d g))))).lookup f
      = some (aggAvg (members.filterMap (fun d => getField d f))) := by
  induction fields with
  | nil => exact absurd hf (by simp)
  | cons g gs ih =>
    by_cases hgy : (g == "Year") = true
    · rw [@List.filterMap_cons_none _ _
        (fun g' => if (g' == "Year") = true then none
          else some (g', aggAvg (members.filterMap (fun d => getField d g'))))
        g gs (if_pos hgy)]
      have hfg : f ∈ gs := by
        rcases List.mem_cons.mp hf with rfl | hm
        · exact absurd (hfy.symm.trans hgy) (by decide)
        · exact hm
      exact ih hfg
    · rw [@List.filterMap_cons_some _ _
        (fun g' => if (g' == "Year") = true then none
          else some (g', aggAvg (members.filterMap (fun d => getField d g'))))
        g gs _ (if_neg hgy)]
      rw [List.lookup_cons]
      cases hfg : f == g with
      | true =>
        simp only [hfg]
        rw [eq_of_beq hfg]
      | false =>
        simp only [hfg]
        have hm : f ∈ gs := by
          rcases List.mem_cons.mp hf with rfl | hm
          · exact absurd (by simp : (f == f) = true)
              (fun hc => Bool.false_ne_true (hfg.symm.trans hc))
          · exact hm
        exact ih hm

theorem getField_project_year (fields : List String) (d : Record) :
    getField (project ("Year" :: fields) d) "Year" = getField d "Year" :=
  getField_project _ d "Year" (by simp [List.contains_cons])

/-- C4: TREND groups the filtered records by year: the group keys are
exactly the `Year` values occurring in the filtered batch, sorted
strictly ascending, and each group document carries, for every selected
field other than `Year`, the arithmetic mean of that field over ALL
records of that year (duplicate years are pooled into one group). -/
theorem trend_group_avg_sorted (fields : List String) (years : List Rat)
    (docs : List Record) :
    ((generate_trend_report fields years docs).map Prod.fst).Pairwise
        (fun a b => bsonLe a b = true ∧ a ≠ b) ∧
    (∀ y, y ∈ (generate_trend_report fields years docs).map Prod.fst ↔
      y ∈ (filterYears years docs).map (fun d => getField d "Year")) ∧
    (∀ y g f, (y, g) ∈ generate_trend_report fields years docs →
      f ∈ fields → (f == "Year") = false →
      g.lookup f = some (aggAvg
        (((filterYears years docs).filter
            (fun d => getField d "Year" == y)).filterMap
          (fun d => getField d f)))) := by
  have hmapfst : (generate_trend_report fields years docs).map Prod.fst
      = sortBy bsonLe (trendGroupKeys
          ((filterYears years docs).map (project ("Year" :: fields)))) := by
    unfold generate_trend_report
    rw [List.map_map]
    exact List.map_id _
  have hyearkeys :
      ((filterYears years docs).map (project ("Year" :: fields))).map
          (fun d => getField d "Year")
        = (filterYears years docs).map (fun d => getField d "Year") := by
    rw [List.map_map]
    exact List.map_congr_left (fun d _ => getField_project_year fields d)
  refine ⟨?_, ?_, ?_⟩
  · rw [hmapfst]
    exact (pairwise_sortBy bsonLe bsonLe_total bsonLe_trans _).and
      (nodup_sortBy _ _ (List.nodup_dedup _))
  · intro y
    rw [hmapfst]
    rw [mem_sortBy]
    unfold trendGroupKeys
    rw [List.mem_dedup, hyearkeys]
  · intro y g f hmem hf hfy
    obtain ⟨k, -, hk⟩ := List.mem_map.mp hmem
    have hk1 : k = y := congrArg Prod.fst hk
    subst hk1
    have hk2 : g = (trendGroupDoc fields ((filterYears years docs).map
        (project ("Year" :: fields))) k).2 := (congrArg Prod.snd hk).symm
    subst hk2
    refine (lookup_trend_fields fields
      ((((filterYears years docs).map (project ("Year" :: fields))).filter
        (fun d => getField d "Year" == k))) f hf hfy).trans ?_
    have hfc : ("Year" :: fields).contains f = true :=
      (contains_iff_mem _ _).mpr (List.mem_cons_of_mem _ hf)
    have hfilter :
        (((filterYears years docs).map (project ("Year" :: fields))).filter
            (fun d => getField d "Year" == k))
          = ((filterYears years docs).filter
              (fun d => getField d "Year" == k)).map (project ("Year" :: fields)) := by
      rw [List.filter_map]
      have hcompy : ((fun d => getField d "Year" == k) ∘ project ("Year" :: fields))
          = (fun d => getField d "Year" == k) := by
        funext d
        simp only [Function.comp]
        rw [getField_project_year]
      rw [hcompy]
    rw [hfilter, List.filterMap_map]
    have hcompf : ((fun d => getField d f) ∘ project ("Year" :: fields))
        = (fun d => getField d f) := by
      funext d
      simp only [Function.comp]
      rw [getField_project _ d f hfc]
    rw [hcompf]

/-- C4 witness: two records in year 2020 with `Total_Revenue` 10 and 20
(plus one in 2021) give a 2020 group whose average is 15. -/
theorem trend_group_avg_sorted_witness :
    ((trendGroupDoc ["Total_Revenue"]
        ((filterYears [] [[("Year", 2020), ("Total_Revenue", 10)],
          [("Year", 2020), ("Total_Revenue", 20)],
          [("Year", 2021), ("Total_Revenue", 30)]]).map
            (project ("Year" :: ["Total_Revenue"]))) (some 2020)).2).lookup
        "Total_Revenue"
      = some (aggAvg [10, 20]) ∧
    aggAvg [10, 20] = some 15 := by
  constructor
  · exact (trend_group_avg_sorted ["Total_Revenue"] []
      [[("Year", 2020), ("Total_Revenue", 10)],
       [("Year", 2020), ("Total_Revenue", 20)],
       [("Year", 2021), ("Total_Revenue", 30)]]).2.2 (some 2020) _ "Total_Revenue"
      (List.Mem.head _) (List.Mem.head _) rfl
  · show some ((10 + (20 + 0) : Rat) / ((2 : Nat) : Rat)) = some 15
    norm_num

theorem adjPairs_fst_mem_tail (b : Rat) (bs : List Rat) (lo hi : Rat)
    (h : (lo, hi) ∈ adjPairs (b :: bs)) : lo ∈ b :: bs :=
  (List.of_mem_zip h).1

/-- `$bucket` assignment is the half-open-interval membership: on
strictly increasing boundaries, a value lands in the bucket labelled
`lo` exactly when `lo ≤ x < hi` for the adjacent boundary pair
`(lo, hi)` (lower-inclusive, upper-exclusive). -/
theorem bucketOf_spec (bs : List Rat) (hs : bs.Chain' (· < ·)) (x lo : Rat) :
    bucketOf bs (some x) = some lo ↔
      ∃ hi, (lo, hi) ∈ adjPairs bs ∧ lo ≤ x ∧ x < hi := by
  induction bs with
  | nil => simp [bucketOf, adjPairs]
  | cons b bs ih =>
    cases bs with
    | nil => simp [bucketOf, adjPairs]
    | cons b2 rest =>
      have hpairs : adjPairs (b :: b2 :: rest) = (b, b2) :: adjPairs (b2 :: rest) := rfl
      have hchain := List.chain'_cons.mp hs
      have hge : ∀ z ∈ b2 :: rest, b2 ≤ z := by
        intro z hz
        rcases List.mem_cons.mp hz with rfl | hz
        · exact le_refl z
        · exact le_of_lt (List.rel_of_pairwise_cons
            (List.chain'_iff_pairwise.mp hchain.2) hz)
      by_cases hp : b ≤ x ∧ x < b2
      · have hfind : (adjPairs (b :: b2 :: rest)).find?
            (fun q => decide (q.1 ≤ x) && decide (x < q.2)) = some (b, b2) := by
          rw [hpairs]
          exact List.find?_cons_of_pos _ (by
            simp only [Bool.and_eq_true, decide_eq_true_eq]
            exact hp)
        constructor
        · intro h
          simp only [bucketOf, hfind, Option.map_some'] at h
          refine ⟨b2, ?_, ?_, ?_⟩
          · rw [hpairs]
            rw [← Option.some_inj.mp h]
            exact List.mem_cons_self _ _
          · rw [← Option.some_inj.mp h]
            exact hp.1
          · exact hp.2
        · rintro ⟨hi, hmem, hle, hlt⟩
          rw [hpairs] at hmem
          rcases List.mem_cons.mp hmem with heq | hmem
          · have hlo : lo = b := by
              have := congrArg Prod.fst heq
              exact this
            simp only [bucketOf, hfind, Option.map_some']
            rw [hlo]
          · exfalso
            have hb2lo : b2 ≤ lo := hge lo (adjPairs_fst_mem_tail b2 rest lo hi hmem)
            exact absurd (lt_of_lt_of_le hp.2 (le_trans hb2lo hle)) (lt_irrefl x)
      · have hfind : (adjPairs (b :: b2 :: rest)).find?
            (fun q => decide (q.1 ≤ x) && decide (x < q.2))
              = (adjPairs (b2 :: rest)).find?
                (fun q => decide (q.1 ≤ x) && decide (x < q.2)) := by
          rw [hpairs]
          exact List.find?_cons_of_neg _ (by
            simp only [Bool.and_eq_true, decide_eq_true_eq]
            exact hp)
        constructor
        · intro h
          simp only [bucketOf, hfind] at h
          obtain ⟨hi, hmem, hcond⟩ := (ih hchain.2).mp h
          exact ⟨hi, by rw [hpairs]; exact List.mem_cons_of_mem _ hmem, hcond⟩
        · rintro ⟨hi, hmem, hle, hlt⟩
          rw [hpairs] at hmem
          rcases List.mem_cons.mp hmem with heq | hmem
          · exfalso
            have h1 : lo = b := congrArg Prod.fst heq
            have h2 : hi = b2 := congrArg Prod.snd heq
            exact hp ⟨h1 ▸ hle, h2 ▸ hlt⟩
          · have := (ih hchain.2).mpr ⟨hi, hmem, hle, hlt⟩
            simp only [bucketOf, hfind]
            simpa [bucketOf] using this

/-- Every `$bucket` output document reports the count and the average of
exactly the grouped values assigned to its bucket, and only non-empty
buckets are emitted. -/
theorem mongoBucket_mem (bs : List Rat) (vs : List (Option Rat))
    (bid : Option Rat) (n : Nat) (a : Option Rat)
    (h : (bid, n, a) ∈ mongoBucket bs vs) :
    n = (vs.filter (fun v => bucketOf bs v == bid)).length ∧ 0 < n ∧
      a = aggAvg ((vs.filter (fun v => bucketOf bs v == bid)).filterMap
        (fun v => v)) := by
  simp only [mongoBucket] at h
  obtain ⟨c, -, hc⟩ := List.mem_filterMap.mp h
  by_cases he : (vs.filter (fun v => bucketOf bs v == c)).isEmpty = true
  · rw [if_pos he] at hc
    exact absurd hc (by simp)
  · rw [if_neg he] at hc
    have h1 : c = bid := congrArg Prod.fst (Option.some_inj.mp hc)
    have h2 : (vs.filter (fun v => bucketOf bs v == c)).length = n :=
      congrArg (fun q => q.2.1) (Option.some_inj.mp hc)
    have h3 : aggAvg ((vs.filter (fun v => bucketOf bs v == c)).filterMap
        (fun v => v)) = a :=
      congrArg (fun q => q.2.2) (Option.some_inj.mp hc)
    subst h1
    refine ⟨h2.symm, ?_, h3.symm⟩
    rw [← h2]
    cases hg : vs.filter (fun v => bucketOf bs v == c) with
    | nil => rw [hg] at he; exact absurd rfl he
    | cons z zs => simp [hg]

/-- C3: for every DISTRIBUTION request each selected field is bucketed
with kind-specific fixed boundaries — currency
`[0, 1e7, 1e8, 1e9, 5e9]`, percentage `[-1, -0.2, 0, 0.1, 0.2, 0.5, 1]`,
number/count `[0, 1000, 5000, 10000, 50000]` — using lower-inclusive /
upper-exclusive intervals; each emitted bucket reports the count and
average of the values falling in it; a currency value of exactly `1e7`
lands in the `[1e7, 1e8)` bucket and `6e9` lands in the default
`"Other"` bucket (`none`). -/
theorem distribution_bucket_semantics (fields : List String) (years : List Rat)
    (docs : List Record) :
    ((∀ f, f ∈ currencyFields →
        bucketBoundaries f = [0, 10000000, 100000000, 1000000000, 5000000000]) ∧
     (∀ f, f ∈ percentageFields →
        bucketBoundaries f = [-1, -0.2, 0, 0.1, 0.2, 0.5, 1]) ∧
     (∀ f, f ∈ numberFields →
        bucketBoundaries f = [0, 1000, 5000, 10000, 50000])) ∧
    (∀ f (x lo : Rat), bucketOf (bucketBoundaries f) (some x) = some lo ↔
        ∃ hi, (lo, hi) ∈ adjPairs (bucketBoundaries f) ∧ lo ≤ x ∧ x < hi) ∧
    (∀ f out, (generate_distribution_report fields years docs).lookup f
        = some out →
      ∀ bid n a, (bid, n, a) ∈ out →
        n = (((filterYears years docs).map (fun d => getField d f)).filter
            (fun v => bucketOf (bucketBoundaries f) v == bid)).length ∧
        0 < n ∧
        a = aggAvg ((((filterYears years docs).map
            (fun d => getField d f)).filter
              (fun v => bucketOf (bucketBoundaries f) v == bid)).filterMap
          (fun v => v))) ∧
    (bucketOf (bucketBoundaries "Total_Revenue") (some 10000000)
        = some 10000000 ∧
     bucketOf (bucketBoundaries "Total_Revenue") (some 6000000000) = none) := by
  refine ⟨⟨?_, ?_, ?_⟩, ?_, ?_, by decide, by decide⟩
  · intro f hf
    have h : f = "Total_Revenue" ∨ f = "Total_Sales" ∨ f = "Market_Cap" := by
      simpa [currencyFields] using hf
    rcases h with rfl | rfl | rfl <;> rfl
  · intro f hf
    have h : f = "Profit_Margin" ∨ f = "Revenue_Growth" := by
      simpa [percentageFields] using hf
    rcases h with rfl | rfl <;> rfl
  · intro f hf
    have hn : numberFields = ["Year", "Record_ID"] := rfl
    rw [hn] at hf
    have h : f = "Year" ∨ f = "Record_ID" := by simpa using hf
    rcases h with rfl | rfl <;> rfl
  · intro f x lo
    refine bucketOf_spec _ ?_ x lo
    unfold bucketBoundaries
    by_cases h1 : currencyFields.contains f = true
    · rw [if_pos h1]
      refine List.chain'_cons.mpr ⟨by norm_num, ?_⟩
      refine List.chain'_cons.mpr ⟨by norm_num, ?_⟩
      refine List.chain'_cons.mpr ⟨by norm_num, ?_⟩
      refine List.chain'_cons.mpr ⟨by norm_num, ?_⟩
      exact List.chain'_singleton _
    · rw [if_neg h1]
      by_cases h2 : percentageFields.contains f = true
      · rw [if_pos h2]
        refine List.chain'_cons.mpr ⟨by norm_num, ?_⟩
        refine List.chain'_cons.mpr ⟨by norm_num, ?_⟩
        refine List.chain'_cons.mpr ⟨by norm_num, ?_⟩
        refine List.chain'_cons.mpr ⟨by norm_num, ?_⟩
        refine List.chain'_cons.mpr ⟨by norm_num, ?_⟩
        refine List.chain'_cons.mpr ⟨by norm_num, ?_⟩
        exact List.chain'_singleton _
      · rw [if_neg h2]
        refine List.chain'_cons.mpr ⟨by norm_num, ?_⟩
        refine List.chain'_cons.mpr ⟨by norm_num, ?_⟩
        refine List.chain'_cons.mpr ⟨by norm_num, ?_⟩
        refine List.chain'_cons.mpr ⟨by norm_num, ?_⟩
        exact List.chain'_singleton _
  · intro f out hout bid n a hmem
    have hval := lookup_map_apply fields
      (fun g => mongoBucket (bucketBoundaries g)
        ((filterYears years docs).map (fun d => getField d g))) f out hout
    subst hval
    exact mongoBucket_mem _ _ bid n a hmem

/-- C3 witness: the `[1e7, 1e8)` bucket of a concrete one-record batch
hosts the value `1e7` with count 1 and its average (plus the boundary
lists of a field of each kind). -/
theorem distribution_bucket_semantics_witness :
    bucketBoundaries "Market_Cap"
        = [0, 10000000, 100000000, 1000000000, 5000000000] ∧
    (1 = (((filterYears [] [[("Market_Cap", 10000000)]]).map
          (fun d => getField d "Market_Cap")).filter
        (fun v => bucketOf (bucketBoundaries "Market_Cap") v
          == some 10000000)).length ∧
      0 < 1 ∧
      aggAvg [10000000]
        = aggAvg ((((filterYears [] [[("Market_Cap", 10000000)]]).map
            (fun d => getField d "Market_Cap")).filter
          (fun v => bucketOf (bucketBoundaries "Market_Cap") v
            == some 10000000)).filterMap (fun v => v))) :=
  ⟨(distribution_bucket_semantics ["Market_Cap"] []
      [[("Market_Cap", 10000000)]]).1.1 "Market_Cap" (by decide),
   (distribution_bucket_semantics ["Market_Cap"] []
      [[("Market_Cap", 10000000)]]).2.2.1 "Market_Cap" _ rfl
     (some 10000000) 1 (aggAvg [10000000]) (List.Mem.head _)⟩

/-- Recognise the sentences only the revenue branch can append. -/
def isRevenueInsight : Insight → Bool
  | .avgRevenue _ => true
  | .revenueTrend _ _ _ => true
  | _ => false

/-- Recognise the sentences only the profit branch can append. -/
def isProfitInsight : Insight → Bool
  | .avgMargin _ => true
  | .highProfit _ _ => true
  | _ => false

/-- Recognise the sentences only the growth branch can append. -/
def isGrowthInsight : Insight → Bool
  | .avgGrowth _ => true
  | .positiveGrowth _ _ => true
  | _ => false

theorem any_bif (b : Bool) (l : List Insight) (p : Insight → Bool) :
    (if b then l else []).any p = (b && l.any p) := by
  cases b <;> simp

theorem revenueInsights_some_any_rev (svs : List SampleView)
    (out : List Insight) (h : revenueInsights svs = some out) :
    out.any isRevenueInsight = !svs.isEmpty := by
  unfold revenueInsights at h
  by_cases he : svs.isEmpty = true
  · rw [if_pos he] at h
    rw [he, ← Option.some_inj.mp h]
    rfl
  · have he' : svs.isEmpty = false := by
      cases hx : svs.isEmpty with
      | false => rfl
      | true => exact absurd hx he
    rw [if_neg he] at h
    obtain ⟨t, -, rfl⟩ := Option.map_eq_some'.mp h
    rw [he']
    rfl

theorem revenueInsights_some_any_other (svs : List SampleView)
    (out : List Insight) (p : Insight → Bool)
    (h1 : ∀ v, p (Insight.avgRevenue v) = false)
    (h2 : ∀ g a b, p (Insight.revenueTrend g a b) = false)
    (h : revenueInsights svs = some out) : out.any p = false := by
  unfold revenueInsights at h
  by_cases he : svs.isEmpty = true
  · rw [if_pos he] at h
    rw [← Option.some_inj.mp h]
    rfl
  · rw [if_neg he] at h
    obtain ⟨t, ht, rfl⟩ := Option.map_eq_some'.mp h
    unfold revenueTrendIns at ht
    by_cases hlen : 1 < (revenueByYear svs).length
    · rw [if_pos hlen] at ht
      by_cases hz : ((avgByYear (revenueByYear svs)).headD 0 == 0) = true
      · rw [if_pos hz] at ht
        exact absurd ht (by simp)
      · rw [if_neg hz] at ht
        rw [← Option.some_inj.mp ht]
        simp [h1, h2]
    · rw [if_neg hlen] at ht
      rw [← Option.some_inj.mp ht]
      simp [h1]

theorem profitInsights_any_prof (svs : List SampleView) :
    (profitInsights svs).any isProfitInsight = !svs.isEmpty := by
  unfold profitInsights
  by_cases h : svs.isEmpty = true
  · rw [if_pos h, h]
    rfl
  · have h' : svs.isEmpty = false := by
      cases hx : svs.isEmpty with
      | false => rfl
      | true => exact absurd hx h
    rw [if_neg h, h']
    simp [isProfitInsight]

theorem profitInsights_any_other (svs : List SampleView) (p : Insight → Bool)
    (h1 : ∀ v, p (Insight.avgMargin v) = false)
    (h2 : ∀ n t, p (Insight.highProfit n t) = false) :
    (profitInsights svs).any p = false := by
  unfold profitInsights
  by_cases h : svs.isEmpty = true
  · rw [if_pos h]
    rfl
  · rw [if_neg h]
    simp [h1, h2]

theorem growthInsights_any_grow (svs : List SampleView) :
    (growthInsights svs).any isGrowthInsight = !svs.isEmpty := by
  unfold growthInsights
  by_cases h : svs.isEmpty = true
  · rw [if_pos h, h]
    rfl
  · have h' : svs.isEmpty = false := by
      cases hx : svs.isEmpty with
      | false => rfl
      | true => exact absurd hx h
    rw [if_neg h, h']
    simp [isGrowthInsight]

theorem growthInsights_any_other (svs : List SampleView) (p : Insight → Bool)
    (h1 : ∀ v, p (Insight.avgGrowth v) = false)
    (h2 : ∀ n t, p (Insight.positiveGrowth n t) = false) :
    (growthInsights svs).any p = false := by
  unfold growthInsights
  by_cases h : svs.isEmpty = true
  · rw [if_pos h]
    rfl
  · rw [if_neg h]
    simp [h1, h2]

theorem chat_sample_isEmpty (fields : List String) (years : List Rat)
    (docs : List Record) :
    ((((filterYears years docs).map (project ("Year" :: fields))).take
        1000).map sampleView).isEmpty = (filterYears years docs).isEmpty := by
  cases h : filterYears years docs with
  | nil => rfl
  | cons d ds => rfl

theorem chatFromSample_any (fields : List String) (years : List Rat)
    (question : String) (svs : List SampleView) (out : List Insight)
    (h : chatFromSample fields years question svs = some out) :
    (out.any isRevenueInsight
      = (strIncludes (strLower question) "revenue"
          && fields.contains "Total_Revenue" && !svs.isEmpty)) ∧
    (out.any isProfitInsight
      = (strIncludes (strLower question) "profit"
          && fields.contains "Profit_Margin" && !svs.isEmpty)) ∧
    (out.any isGrowthInsight
      = (strIncludes (strLower question) "growth"
          && fields.contains "Revenue_Growth" && !svs.isEmpty)) := by
  unfold chatFromSample at h
  obtain ⟨rev, hrev, rfl⟩ := Option.map_eq_some'.mp h
  have hrev_rev : rev.any isRevenueInsight
      = ((strIncludes (strLower question) "revenue"
          && fields.contains "Total_Revenue") && !svs.isEmpty) := by
    by_cases hc : (strIncludes (strLower question) "revenue"
        && fields.contains "Total_Revenue") = true
    · rw [if_pos hc] at hrev
      rw [hc, Bool.true_and]
      exact revenueInsights_some_any_rev svs rev hrev
    · have hc' : (strIncludes (strLower question) "revenue"
          && fields.contains "Total_Revenue") = false := by
        cases hx : (strIncludes (strLower question) "revenue"
            && fields.contains "Total_Revenue") with
        | false => rfl
        | true => exact absurd hx hc
      rw [if_neg hc] at hrev
      rw [hc', Bool.false_and, ← Option.some_inj.mp hrev]
      rfl
  have hrev_other : ∀ p : Insight → Bool,
      (∀ v, p (Insight.avgRevenue v) = false) →
      (∀ g a b, p (Insight.revenueTrend g a b) = false) →
      rev.any p = false := by
    intro p h1 h2
    by_cases hc : (strIncludes (strLower question) "revenue"
        && fields.contains "Total_Revenue") = true
    · rw [if_pos hc] at hrev
      exact revenueInsights_some_any_other svs rev p h1 h2 hrev
    · rw [if_neg hc] at hrev
      rw [← Option.some_inj.mp hrev]
      rfl
  refine ⟨?_, ?_, ?_⟩
  · simp only [List.any_append, any_bif, hrev_rev,
      profitInsights_any_other svs isRevenueInsight (fun _ => rfl) (fun _ _ => rfl),
      growthInsights_any_other svs isRevenueInsight (fun _ => rfl) (fun _ _ => rfl)]
    simp [isRevenueInsight, Bool.and_assoc]
  · simp only [List.any_append, any_bif,
      hrev_other isProfitInsight (fun _ => rfl) (fun _ _ _ => rfl),
      profitInsights_any_prof,
      growthInsights_any_other svs isProfitInsight (fun _ => rfl) (fun _ _ => rfl)]
    simp [isProfitInsight, Bool.and_assoc]
  · simp only [List.any_append, any_bif,
      hrev_other isGrowthInsight (fun _ => rfl) (fun _ _ _ => rfl),
      profitInsights_any_other svs isGrowthInsight (fun _ => rfl) (fun _ _ => rfl),
      growthInsights_any_grow]
    simp [isGrowthInsight, Bool.and_assoc]

/-- C5 (amended): whenever the insight computation completes (the
revenue branch raises an uncaught ZeroDivisionError — modelled as
`none` — when more than one truthy year is sampled and the earliest
year's average revenue is zero, and then no insights at all are
produced), a keyword-specific insight sentence is present if and only
if the keyword (`"revenue"`, `"profit"`, `"growth"`, matched
case-insensitively) occurs in the question AND the corresponding field
is selected AND the sampled record batch is non-empty; the two general
sentences (record count/years and selected-fields echo) are always the
last two. -/
theorem chat_keyword_gating (fields : List String) (years : List Rat)
    (question : String) (docs : List Record) (out : List Insight)
    (h : generate_chat_insights fields years question docs = some out) :
    (out.any isRevenueInsight
      = (strIncludes (strLower question) "revenue"
          && fields.contains "Total_Revenue"
          && !(filterYears years docs).isEmpty)) ∧
    (out.any isProfitInsight
      = (strIncludes (strLower question) "profit"
          && fields.contains "Profit_Margin"
          && !(filterYears years docs).isEmpty)) ∧
    (out.any isGrowthInsight
      = (strIncludes (strLower question) "growth"
          && fields.contains "Revenue_Growth"
          && !(filterYears years docs).isEmpty)) ∧
    (∃ pre, out
      = pre ++ [Insight.recordStats ((((filterYears years docs).map
            (project ("Year" :: fields))).take 1000).map sampleView).length
            years,
          Insight.selectedFields fields]) := by
  have hs := chat_sample_isEmpty fields years docs
  have ha := chatFromSample_any fields years question
    ((((filterYears years docs).map (project ("Year" :: fields))).take
        1000).map sampleView) out h
  refine ⟨?_, ?_, ?_, ?_⟩
  · rw [ha.1, hs]
  · rw [ha.2.1, hs]
  · rw [ha.2.2, hs]
  · obtain ⟨rev, -, hout⟩ := Option.map_eq_some'.mp h
    refine ⟨rev ++ ((if strIncludes (strLower question) "profit"
        && fields.contains "Profit_Margin" then profitInsights
          ((((filterYears years docs).map (project ("Year" :: fields))).take
            1000).map sampleView) else [])
      ++ (if strIncludes (strLower question) "growth"
        && fields.contains "Revenue_Growth" then growthInsights
          ((((filterYears years docs).map (project ("Year" :: fields))).take
            1000).map sampleView) else [])), ?_⟩
    rw [← hout]
    simp [List.append_assoc]

/-- C5 witness: a completing concrete chat request — revenue keyword,
field selected, non-empty batch — carries a revenue-specific
sentence. -/
theorem chat_keyword_gating_witness :
    ((generate_chat_insights ["Total_Revenue"] [] "revenue"
        [[("Year", 2020), ("Total_Revenue", 10)]]).getD []).any
      isRevenueInsight = true := by
  have h := (chat_keyword_gating ["Total_Revenue"] [] "revenue"
    [[("Year", 2020), ("Total_Revenue", 10)]]
    ((generate_chat_insights ["Total_Revenue"] [] "revenue"
        [[("Year", 2020), ("Total_Revenue", 10)]]).getD []) rfl).1
  rw [h]
  rfl

/-- C5 counterexample: the question `"revenue"` with `Total_Revenue`
selected but an empty record batch satisfies the claim's two conditions
yet the (completing) computation produces no revenue-specific sentence,
only the two general statements — the claimed "if and only if"
fails. -/
theorem chat_keyword_counterexample :
    strIncludes (strLower "revenue") "revenue" = true ∧
    ("Total_Revenue" ∈ (["Total_Revenue"] : List String)) ∧
    generate_chat_insights ["Total_Revenue"] [] "revenue" []
      = some [Insight.recordStats 0 [],
          Insight.selectedFields ["Total_Revenue"]] ∧
    ((generate_chat_insights ["Total_Revenue"] [] "revenue" []).getD []).any
        isRevenueInsight = false := by
  refine ⟨rfl, by decide, rfl, rfl⟩

theorem getField_append (r s : Record) (f : String) :
    getField (r ++ s) f
      = match getField r f with
        | some v => some v
        | none => getField s f := by
  induction r with
  | nil => rfl
  | cons p r ih =>
    cases hpf : (p.1 == f) with
    | true =>
      rw [List.cons_append, getField_cons_pos p _ f hpf, getField_cons_pos p r f hpf]
    | false =>
      rw [List.cons_append, getField_cons_neg p _ f hpf, getField_cons_neg p r f hpf]
      exact ih

/-- Extend a document with explicit zero bindings for the three keyword
fields (to compare a missing field against a literal `0`). -/
def zeroPad (r : Record) : Record :=
  r ++ [("Total_Revenue", 0), ("Profit_Margin", 0), ("Revenue_Growth", 0)]

theorem getField_zeroPad_year (r : Record) :
    getField (zeroPad r) "Year" = getField r "Year" := by
  unfold zeroPad
  rw [getField_append]
  cases getField r "Year" <;> rfl

theorem getField_project_none (ks : List String) (r : Record) (g : String)
    (h : getField r g = none) : getField (project ks r) g = none := by
  induction r with
  | nil => rfl
  | cons p r ih =>
    have hpg : (p.1 == g) = false := by
      cases hpg : (p.1 == g) with
      | false => rfl
      | true => rw [getField_cons_pos p r g hpg] at h; exact absurd h (by simp)
    have hr : getField r g = none := by
      rw [getField_cons_neg p r g hpg] at h
      exact h
    by_cases hk : ks.contains p.1 = true
    · rw [project_cons_pos ks p r hk, getField_cons_neg p _ g hpg]
      exact ih hr
    · have hk' : ks.contains p.1 = false := by
        cases hx : ks.contains p.1 with
        | false => rfl
        | true => exact absurd hx hk
      rw [project_cons_neg ks p r hk']
      exact ih hr

theorem getFieldD_all_zero (r : Record) (hz : ∀ p ∈ r, p.2 = 0) (g : String) :
    getFieldD r g 0 = 0 := by
  unfold getFieldD getField
  cases hf : r.find? (fun p => p.1 == g) with
  | none => rfl
  | some p =>
    have hm := List.mem_of_find?_eq_some hf
    simp [hz p hm]

/-- Through the `$project` stage, the insight code's four accessors do
not distinguish a record lacking the keyword fields from the same
record with explicit zero bindings. -/
theorem sampleView_project_zeroPad (fields : List String) (r : Record)
    (h1 : getField r "Total_Revenue" = none)
    (h2 : getField r "Profit_Margin" = none)
    (h3 : getField r "Revenue_Growth" = none) :
    sampleView (project ("Year" :: fields) (zeroPad r))
      = sampleView (project ("Year" :: fields) r) := by
  have hsplit : project ("Year" :: fields) (zeroPad r)
      = project ("Year" :: fields) r ++ project ("Year" :: fields)
          [("Total_Revenue", 0), ("Profit_Margin", 0), ("Revenue_Growth", 0)] :=
    List.filter_append _ _
  have hzmem : ∀ p ∈ project ("Year" :: fields)
      [(("Total_Revenue" : String), (0 : Rat)), ("Profit_Margin", 0),
        ("Revenue_Growth", 0)],
      p.2 = 0 ∧ (p.1 == "Year") = false := by
    intro p hp
    have hp' := List.mem_of_mem_filter hp
    simp only [List.mem_cons, List.not_mem_nil, or_false] at hp'
    rcases hp' with rfl | rfl | rfl <;> exact ⟨rfl, rfl⟩
  have hcomp : ∀ g : String, getField r g = none →
      getFieldD (project ("Year" :: fields) (zeroPad r)) g 0
        = getFieldD (project ("Year" :: fields) r) g 0 := by
    intro g hg
    have hrhs : getFieldD (project ("Year" :: fields) r) g 0 = 0 := by
      unfold getFieldD
      rw [getField_project_none _ _ _ hg]
      rfl
    rw [hrhs]
    unfold getFieldD
    rw [hsplit, getField_append, getField_project_none _ _ _ hg]
    exact getFieldD_all_zero _ (fun p hp => (hzmem p hp).1) g
  have hyearc : getField (project ("Year" :: fields) (zeroPad r)) "Year"
      = getField (project ("Year" :: fields) r) "Year" := by
    rw [hsplit, getField_append]
    cases hy : getField (project ("Year" :: fields) r) "Year" with
    | some v => rfl
    | none =>
      show getField (project ("Year" :: fields)
        [("Total_Revenue", 0), ("Profit_Margin", 0), ("Revenue_Growth", 0)])
          "Year" = none
      unfold getField
      rw [List.find?_eq_none.mpr (fun p hp hc =>
        Bool.false_ne_true (((hzmem p hp).2).symm.trans hc))]
      rfl
  simp only [sampleView, SampleView.mk.injEq]
  exact ⟨hyearc, hcomp "Total_Revenue" h1, hcomp "Profit_Margin" h2,
    hcomp "Revenue_Growth" h3⟩

/-- C10: in CHAT insight computation a sampled record that lacks a
keyword field contributes the value `0` to that keyword's metrics
(`d.get(field, 0)`): replacing the missing `Total_Revenue`,
`Profit_Margin` and `Revenue_Growth` by explicit zero bindings changes
no insight — the averages divide the zero-padded sum by the full sample
size and the threshold counts treat the missing value as `0`. -/
theorem chat_missing_field_as_zero (fields : List String) (years : List Rat)
    (question : String) (pre post : List Record) (r : Record)
    (h1 : getField r "Total_Revenue" = none)
    (h2 : getField r "Profit_Margin" = none)
    (h3 : getField r "Revenue_Growth" = none) :
    generate_chat_insights fields years question (pre ++ r :: post)
      = generate_chat_insights fields years question
          (pre ++ zeroPad r :: post) := by
  have hview : sampleView (project ("Year" :: fields) (zeroPad r))
      = sampleView (project ("Year" :: fields) r) :=
    sampleView_project_zeroPad fields r h1 h2 h3
  have hyear : getField (zeroPad r) "Year" = getField r "Year" :=
    getField_zeroPad_year r
  suffices hsv : ((filterYears years (pre ++ r :: post)).map
        (project ("Year" :: fields))).map sampleView
      = ((filterYears years (pre ++ zeroPad r :: post)).map
        (project ("Year" :: fields))).map sampleView by
    show chatFromSample fields years question _ = chatFromSample fields years question _
    refine congrArg (chatFromSample fields years question) ?_
    rw [List.map_take, List.map_take, hsv]
  rw [List.map_map, List.map_map]
  unfold filterYears
  by_cases hy : years.isEmpty = true
  · rw [if_pos hy, if_pos hy]
    rw [List.map_append, List.map_append, List.map_cons, List.map_cons]
    simp only [Function.comp]
    rw [hview]
  · rw [if_neg hy, if_neg hy]
    rw [List.filter_append, List.filter_append, List.filter_cons, List.filter_cons]
    simp only [hyear]
    by_cases hc : (match getField r "Year" with
        | some y => years.contains y
        | none => false) = true
    · rw [if_pos hc, if_pos hc]
      rw [List.map_append, List.map_append, List.map_cons, List.map_cons]
      simp only [Function.comp]
      rw [hview]
    · rw [if_neg hc, if_neg hc]

/-- C10 witness: a record lacking the keyword fields next to one that
has `Total_Revenue` produces the same insights as its zero-padded
variant. -/
theorem chat_missing_field_as_zero_witness :
    getField [(("Year" : String), (2021 : Rat))] "Total_Revenue" = none ∧
    generate_chat_insights ["Total_Revenue"] [] "revenue"
        ([[("Year", 2020), ("Total_Revenue", 10)]] ++ [("Year", 2021)] :: [])
      = generate_chat_insights ["Total_Revenue"] [] "revenue"
        ([[("Year", 2020), ("Total_Revenue", 10)]]
          ++ zeroPad [("Year", 2021)] :: []) :=
  ⟨rfl, chat_missing_field_as_zero ["Total_Revenue"] [] "revenue"
    [[("Year", 2020), ("Total_Revenue", 10)]] [] [("Year", 2021)] rfl rfl rfl⟩
